import Mathlib

/-!
Formal model of the fpsensor wire-protocol core: the frame codec
(`fpsensor/frame.py` and the earlier revision `fpsensor/fpframe.py`), the
system-parameter decoder (`fpsensor/fpapi.py`) and the SDK transaction layer
(`fpsensor/sdk.py`).

Conventions of the embedding: bytes are natural numbers, byte strings are
`List Nat`, big-endian multi-byte integers are decoded/encoded by
`fromBytesBE`/`toBytesBE`, machine truncation is explicit (`% 2 ^ 16`,
`&&& 0xFFFF`), and fallible Python code returns `Option` or `Except`
(an `Except.error` models a raised exception, a returned `none` models a
returned `None`).
-/

/-- Mirror of `int.from_bytes(bytes=l, byteorder='big', signed=False)`. -/
def fromBytesBE (l : List Nat) : Nat :=
  l.foldl (fun a b => 256 * a + b) 0

/-- Mirror of `v.to_bytes(length=L, byteorder='big', signed=False)` on values
that fit in `L` bytes (on larger values Python raises `OverflowError`; this
total function truncates, and every use site either guards the bound or takes
it as a hypothesis). -/
def toBytesBE : Nat → Nat → List Nat
  | 0, _ => []
  | L + 1, v => toBytesBE L (v / 256) ++ [v % 256]

/-- Python slice `data[a:b]` (for `0 ≤ a ≤ b`). -/
def pySlice (data : List Nat) (a b : Nat) : List Nat :=
  (data.take b).drop a

/-- Mirror of `FpPID` (`fpapi.py`): the four packet identifiers. -/
inductive FpPID where
  | COMMAND
  | DATA
  | ACK
  | END_OF_DATA
deriving DecidableEq

/-- Byte value of each `FpPID` member. -/
def FpPID.toNat : FpPID → Nat
  | .COMMAND => 0x01
  | .DATA => 0x02
  | .ACK => 0x07
  | .END_OF_DATA => 0x08

/-- Mirror of `FpPID.has_value(value=v)` (from `IntEnumMod`): is `v` the byte
value of some member? -/
def FpPID.hasValue (v : Nat) : Bool :=
  v == 0x01 || v == 0x02 || v == 0x07 || v == 0x08

/-- Mirror of the enum constructor `FpPID(v)`; every call site guards it with
`FpPID.has_value`, so the value on unknown bytes is irrelevant. (Named
`fromValue` because Lean reserves `FpPID.ofNat` for the derived enum helper.) -/
def FpPID.fromValue (v : Nat) : FpPID :=
  if v == 0x01 then .COMMAND
  else if v == 0x02 then .DATA
  else if v == 0x07 then .ACK
  else .END_OF_DATA

/-- Mirror of the `FpFrame` dataclass (fields and defaults are identical in
`frame.py` and `fpframe.py`). -/
structure FpFrame where
  address : Nat := 0xFFFFFFFF
  pid : FpPID := .COMMAND
  packet : List Nat := []
deriving DecidableEq

/-- Mirror of `FpFrame.length`: `len(packet) + 2` (packet plus checksum). -/
def FpFrame.length (f : FpFrame) : Nat :=
  f.packet.length + 2

/-- Mirror of `FpFrame.raw`: PID byte, 2-byte big-endian length, packet. -/
def FpFrame.raw (f : FpFrame) : List Nat :=
  f.pid.toNat :: (toBytesBE 2 f.length ++ f.packet)

/-- Mirror of `FpFrame.checksum`: `0xFFFF & sum(self.raw())`. -/
def FpFrame.checksum (f : FpFrame) : Nat :=
  0xFFFF &&& f.raw.sum

/-- Mirror of `FpFrame.serialize`: 2-byte header, 4-byte big-endian address,
raw block, 2-byte big-endian checksum. -/
def FpFrame.serialize (f : FpFrame) : List Nat :=
  toBytesBE 2 0xEF01 ++ toBytesBE 4 f.address ++ f.raw ++ toBytesBE 2 f.checksum

/-- Common body of `FpFrame.deserialize`: the code is byte-for-byte identical
in `frame.py` and `fpframe.py`; the only difference is the class constant
`LENGTH` used by the minimum-length guard (`11` in `frame.py`, `9` in
`fpframe.py`), taken here as the parameter `minLen`. -/
def deserializeWith (minLen : Nat) (data : List Nat) : Option FpFrame :=
  if data.length < minLen then none
  else
    let head := fromBytesBE (pySlice data 0 2)
    if head ≠ 0xEF01 then none
    else if ¬ FpPID.hasValue (data.getD 6 0) then none
    else
      let tmp : FpFrame :=
        { address := fromBytesBE (pySlice data 2 6)
          pid := FpPID.fromValue (data.getD 6 0)
          packet := (data.take (data.length - 2)).drop 9 }
      let plen := fromBytesBE (pySlice data 7 9)
      let csum := fromBytesBE (data.drop (data.length - 2))
      if plen ≠ tmp.length ∨ csum ≠ tmp.checksum then none
      else some tmp

/-- Mirror of `FpFrame.deserialize` in `frame.py` (`LENGTH = 11`). -/
def FpFrame.deserialize (data : List Nat) : Option FpFrame :=
  deserializeWith 11 data

/-- Mirror of `FpFrame.deserialize` in the earlier revision `fpframe.py`
(`LENGTH = 9`). -/
def FpFrame.deserializeFpframe (data : List Nat) : Option FpFrame :=
  deserializeWith 9 data

-- Basic facts about the byte codecs.

theorem toBytesBE_length (L v : Nat) : (toBytesBE L v).length = L := by
  induction L generalizing v with
  | zero => rfl
  | succ L ih => simp [toBytesBE, ih]

theorem fromBytesBE_foldl (a : Nat) (l : List Nat) :
    l.foldl (fun x b => 256 * x + b) a =
      a * 256 ^ l.length + l.foldl (fun x b => 256 * x + b) 0 := by
  induction l generalizing a with
  | nil => simp
  | cons b t ih =>
    simp only [List.foldl_cons, List.length_cons]
    rw [ih (256 * a + b), ih (256 * 0 + b)]
    ring

theorem fromBytesBE_append (xs ys : List Nat) :
    fromBytesBE (xs ++ ys) = fromBytesBE xs * 256 ^ ys.length + fromBytesBE ys := by
  unfold fromBytesBE
  rw [List.foldl_append]
  exact fromBytesBE_foldl _ ys

theorem fromBytesBE_singleton (x : Nat) : fromBytesBE [x] = x := by
  simp [fromBytesBE]

theorem fromBytesBE_toBytesBE (L v : Nat) :
    fromBytesBE (toBytesBE L v) = v % 256 ^ L := by
  induction L generalizing v with
  | zero => simp [toBytesBE, fromBytesBE, Nat.mod_one]
  | succ L ih =>
    rw [toBytesBE, fromBytesBE_append, ih, fromBytesBE_singleton]
    have h2 : ([v % 256] : List Nat).length = 1 := rfl
    rw [h2, pow_one]
    have h3 : (256 : Nat) ^ (L + 1) = 256 * 256 ^ L := by ring
    rw [h3, Nat.mod_mul]
    omega

theorem fromBytesBE_toBytesBE_of_lt {L v : Nat} (h : v < 256 ^ L) :
    fromBytesBE (toBytesBE L v) = v := by
  rw [fromBytesBE_toBytesBE, Nat.mod_eq_of_lt h]

theorem getD_append_cons (xs ys : List Nat) (y n : Nat) (h : xs.length = n) :
    (xs ++ y :: ys).getD n 0 = y := by
  subst h
  induction xs with
  | nil => rfl
  | cons a t ih => simpa using ih

-- Decomposition of a serialized frame into its wire fields.

theorem toBytesBE_header : toBytesBE 2 0xEF01 = [0xEF, 0x01] := rfl

theorem FpFrame.serialize_decomp (f : FpFrame) :
    f.serialize =
      [0xEF, 0x01] ++ toBytesBE 4 f.address ++ [f.pid.toNat] ++
        toBytesBE 2 f.length ++ f.packet ++ toBytesBE 2 f.checksum := by
  simp [FpFrame.serialize, FpFrame.raw, toBytesBE_header]

theorem FpFrame.serialize_length (f : FpFrame) :
    f.serialize.length = 11 + f.packet.length := by
  simp [f.serialize_decomp, toBytesBE_length]
  omega

theorem serialize_slice02 (f : FpFrame) :
    pySlice f.serialize 0 2 = [0xEF, 0x01] := by
  have h : f.serialize =
      [0xEF, 0x01] ++ (toBytesBE 4 f.address ++ [f.pid.toNat] ++
        toBytesBE 2 f.length ++ f.packet ++ toBytesBE 2 f.checksum) := by
    simp [f.serialize_decomp]
  rw [pySlice, h, List.take_left' (by rfl : ([0xEF, 0x01] : List Nat).length = 2)]
  rfl

theorem serialize_slice26 (f : FpFrame) :
    pySlice f.serialize 2 6 = toBytesBE 4 f.address := by
  have h : f.serialize =
      ([0xEF, 0x01] ++ toBytesBE 4 f.address) ++ ([f.pid.toNat] ++
        toBytesBE 2 f.length ++ f.packet ++ toBytesBE 2 f.checksum) := by
    simp [f.serialize_decomp]
  have hl : (([0xEF, 0x01] : List Nat) ++ toBytesBE 4 f.address).length = 6 := by
    simp [toBytesBE_length]
  rw [pySlice, h, List.take_left' hl]
  exact List.drop_left' (by rfl)

theorem serialize_get6 (f : FpFrame) :
    f.serialize.getD 6 0 = f.pid.toNat := by
  have h : f.serialize =
      ([0xEF, 0x01] ++ toBytesBE 4 f.address) ++ f.pid.toNat ::
        (toBytesBE 2 f.length ++ f.packet ++ toBytesBE 2 f.checksum) := by
    simp [f.serialize_decomp]
  rw [h]
  exact getD_append_cons _ _ _ _ (by simp [toBytesBE_length])

theorem serialize_slice79 (f : FpFrame) :
    pySlice f.serialize 7 9 = toBytesBE 2 f.length := by
  have h : f.serialize =
      (([0xEF, 0x01] ++ toBytesBE 4 f.address ++ [f.pid.toNat]) ++
        toBytesBE 2 f.length) ++ (f.packet ++ toBytesBE 2 f.checksum) := by
    simp [f.serialize_decomp]
  have hl : ((([0xEF, 0x01] ++ toBytesBE 4 f.address ++ [f.pid.toNat]) ++
      toBytesBE 2 f.length) : List Nat).length = 9 := by
    simp [toBytesBE_length]
  rw [pySlice, h, List.take_left' hl]
  exact List.drop_left' (by simp [toBytesBE_length])

theorem serialize_packet_slice (f : FpFrame) :
    (f.serialize.take (f.serialize.length - 2)).drop 9 = f.packet := by
  have h : f.serialize =
      (([0xEF, 0x01] ++ toBytesBE 4 f.address ++ [f.pid.toNat] ++
        toBytesBE 2 f.length) ++ f.packet) ++ toBytesBE 2 f.checksum := by
    simp [f.serialize_decomp]
  have hl : ((([0xEF, 0x01] ++ toBytesBE 4 f.address ++ [f.pid.toNat] ++
      toBytesBE 2 f.length) ++ f.packet) : List Nat).length = 9 + f.packet.length := by
    simp [toBytesBE_length]
    omega
  have hlen : f.serialize.length - 2 = 9 + f.packet.length := by
    rw [f.serialize_length]
    omega
  rw [hlen, h, List.take_left' hl]
  exact List.drop_left' (by simp [toBytesBE_length])

theorem serialize_trailer (f : FpFrame) :
    f.serialize.drop (f.serialize.length - 2) = toBytesBE 2 f.checksum := by
  have h : f.serialize =
      (([0xEF, 0x01] ++ toBytesBE 4 f.address ++ [f.pid.toNat] ++
        toBytesBE 2 f.length) ++ f.packet) ++ toBytesBE 2 f.checksum := by
    simp [f.serialize_decomp]
  have hlen : f.serialize.length - 2 = 9 + f.packet.length := by
    rw [f.serialize_length]
    omega
  rw [hlen, h]
  exact List.drop_left' (by simp [toBytesBE_length]; omega)

theorem fromBytesBE_header : fromBytesBE [0xEF, 0x01] = 0xEF01 := rfl

theorem FpPID.hasValue_toNat (p : FpPID) : FpPID.hasValue p.toNat = true := by
  cases p <;> rfl

theorem FpPID.fromValue_toNat (p : FpPID) : FpPID.fromValue p.toNat = p := by
  cases p <;> rfl

theorem FpFrame.checksum_le (f : FpFrame) : f.checksum ≤ 0xFFFF :=
  Nat.and_le_left

/-- Round-trip of the codec through either revision of the minimum-length
guard: deserializing a serialized valid frame restores the frame. -/
theorem deserializeWith_serialize {minLen : Nat} (f : FpFrame)
    (hmin : minLen ≤ 11) (haddr : f.address < 2 ^ 32)
    (hpkt : f.packet.length ≤ 253) :
    deserializeWith minLen f.serialize = some f := by
  have hlen := f.serialize_length
  have hnlt : ¬ (f.serialize.length < minLen) := by omega
  have haddr2 : fromBytesBE (toBytesBE 4 f.address) = f.address :=
    fromBytesBE_toBytesBE_of_lt (by norm_num at haddr ⊢; omega)
  have hplen : fromBytesBE (toBytesBE 2 f.length) = f.length := by
    apply fromBytesBE_toBytesBE_of_lt
    have : f.length = f.packet.length + 2 := rfl
    norm_num
    omega
  have hcsum : fromBytesBE (toBytesBE 2 f.checksum) = f.checksum := by
    apply fromBytesBE_toBytesBE_of_lt
    have := f.checksum_le
    norm_num
    omega
  unfold deserializeWith
  simp only [serialize_slice02 f, serialize_slice26 f, serialize_get6 f,
    serialize_slice79 f, serialize_packet_slice f, serialize_trailer f,
    fromBytesBE_header, FpPID.hasValue_toNat, FpPID.fromValue_toNat,
    haddr2, hplen, hcsum, if_neg hnlt]
  simp [FpFrame.length, FpFrame.checksum, FpFrame.raw]

/-- C1: Codec round-trip: for every frame whose pid is one of the four known
packet identifiers, whose address fits in 32 bits unsigned and whose payload
has at most 253 bytes, deserializing the serialization yields an equal frame
(same address, pid and payload) — in both revisions of the codec
(`frame.py` and `fpframe.py`). -/
theorem codec_round_trip (f : FpFrame) (haddr : f.address < 2 ^ 32)
    (hpkt : f.packet.length ≤ 253) :
    FpFrame.deserialize f.serialize = some f ∧
    FpFrame.deserializeFpframe f.serialize = some f :=
  ⟨deserializeWith_serialize f (by omega) haddr hpkt,
   deserializeWith_serialize f (by omega) haddr hpkt⟩

/-- Witness for C1 at the image-capture frame of the spec's scenario E1. -/
theorem codec_round_trip_witness :
    (0xFFFFFFFF : Nat) < 2 ^ 32 ∧ ([0x01] : List Nat).length ≤ 253 ∧
    (FpFrame.deserialize (FpFrame.serialize ⟨0xFFFFFFFF, FpPID.COMMAND, [0x01]⟩) =
        some ⟨0xFFFFFFFF, FpPID.COMMAND, [0x01]⟩ ∧
      FpFrame.deserializeFpframe (FpFrame.serialize ⟨0xFFFFFFFF, FpPID.COMMAND, [0x01]⟩) =
        some ⟨0xFFFFFFFF, FpPID.COMMAND, [0x01]⟩) :=
  ⟨by norm_num, by norm_num,
   codec_round_trip ⟨0xFFFFFFFF, FpPID.COMMAND, [0x01]⟩ (by norm_num) (by norm_num)⟩

/-- Checksum as the spec words it: the sum of the pid byte, both length-field
bytes and all payload bytes, reduced mod `2 ^ 16` (header and address
excluded). Stated separately from `FpFrame.checksum` (which mirrors the
source's `0xFFFF & sum(raw)`) so that the wire-layout theorem compares the
two. -/
def specChecksum (pidByte : Nat) (lenBytes payload : List Nat) : Nat :=
  (pidByte + lenBytes.sum + payload.sum) % 2 ^ 16

theorem FpFrame.checksum_eq_specChecksum (f : FpFrame) :
    f.checksum = specChecksum f.pid.toNat (toBytesBE 2 f.length) f.packet := by
  have hmask : (0xFFFF : Nat) = 2 ^ 16 - 1 := by norm_num
  rw [FpFrame.checksum, Nat.and_comm, hmask, Nat.and_pow_two_sub_one_eq_mod]
  simp [FpFrame.raw, specChecksum]
  ring_nf

/-- C5: Encoded wire layout: a serialized frame is the 2-byte header `0xEF01`,
the 4-byte big-endian address, the pid byte, a 2-byte big-endian length field
equal to `len(payload) + 2`, the payload, and a 2-byte big-endian checksum
equal to the sum of the pid byte, both length-field bytes and all payload
bytes mod `2 ^ 16`; and the concrete frame of scenario E1 serializes to
exactly `EF 01 FF FF FF FF 01 00 03 01 00 05`. -/
theorem encoded_wire_layout (f : FpFrame) (haddr : f.address < 2 ^ 32)
    (hpkt : f.packet.length ≤ 253) :
    f.serialize =
      [0xEF, 0x01] ++ toBytesBE 4 f.address ++ [f.pid.toNat] ++
        toBytesBE 2 (f.packet.length + 2) ++ f.packet ++
        toBytesBE 2 (specChecksum f.pid.toNat
          (toBytesBE 2 (f.packet.length + 2)) f.packet) ∧
    FpFrame.serialize ⟨0xFFFFFFFF, FpPID.COMMAND, [0x01]⟩ =
      [0xEF, 0x01, 0xFF, 0xFF, 0xFF, 0xFF, 0x01, 0x00, 0x03, 0x01, 0x00, 0x05] := by
  constructor
  · have h := f.serialize_decomp
    have hc := f.checksum_eq_specChecksum
    have hl : f.length = f.packet.length + 2 := rfl
    rw [h, hc, hl]
  · decide

/-- Witness for C5 at the E1 frame. -/
theorem encoded_wire_layout_witness :
    (0xFFFFFFFF : Nat) < 2 ^ 32 ∧ ([0x01] : List Nat).length ≤ 253 ∧
    FpFrame.serialize ⟨0xFFFFFFFF, FpPID.COMMAND, [0x01]⟩ =
      [0xEF, 0x01] ++ toBytesBE 4 0xFFFFFFFF ++ [FpPID.toNat FpPID.COMMAND] ++
        toBytesBE 2 (([0x01] : List Nat).length + 2) ++ [0x01] ++
        toBytesBE 2 (specChecksum (FpPID.toNat FpPID.COMMAND)
          (toBytesBE 2 (([0x01] : List Nat).length + 2)) [0x01]) :=
  ⟨by norm_num, by norm_num,
   (encoded_wire_layout ⟨0xFFFFFFFF, FpPID.COMMAND, [0x01]⟩
      (by norm_num) (by norm_num)).1⟩

-- Inversion: everything a successful deserialization certifies.

theorem deserializeWith_some {minLen : Nat} {data : List Nat} {f : FpFrame}
    (h : deserializeWith minLen data = some f) :
    minLen ≤ data.length ∧
    fromBytesBE (pySlice data 0 2) = 0xEF01 ∧
    FpPID.hasValue (data.getD 6 0) = true ∧
    f.address = fromBytesBE (pySlice data 2 6) ∧
    f.pid = FpPID.fromValue (data.getD 6 0) ∧
    f.packet = (data.take (data.length - 2)).drop 9 ∧
    fromBytesBE (pySlice data 7 9) = f.length ∧
    fromBytesBE (data.drop (data.length - 2)) = f.checksum := by
  simp only [deserializeWith] at h
  split at h
  · exact absurd h (by simp)
  split at h
  · exact absurd h (by simp)
  split at h
  · exact absurd h (by simp)
  split at h
  · exact absurd h (by simp)
  rename_i hlen hhead hpid hchk
  obtain rfl : _ = f := Option.some_injective _ h
  push_neg at hhead hchk
  exact ⟨by omega, hhead, by simpa using hpid, rfl, rfl, rfl, hchk.1, hchk.2⟩

theorem FpFrame.checksum_nil (a : Nat) (p : FpPID) :
    FpFrame.checksum ⟨a, p, []⟩ = p.toNat + 2 := by
  cases p <;>
    simp [FpFrame.checksum, FpFrame.raw, FpFrame.length, FpPID.toNat, toBytesBE] <;>
    decide

theorem FpPID.toNat_bounds (p : FpPID) : 1 ≤ p.toNat ∧ p.toNat ≤ 8 := by
  cases p <;> simp [FpPID.toNat]

theorem fromBytesBE_pair (x y : Nat) : fromBytesBE [x, y] = 256 * x + y := by
  simp [fromBytesBE]

theorem list_len3 (l : List Nat) (h : l.length = 3) : ∃ a b c, l = [a, b, c] := by
  rcases l with _ | ⟨a, l⟩
  · simp at h
  rcases l with _ | ⟨b, l⟩
  · simp at h
  rcases l with _ | ⟨c, l⟩
  · simp at h
  rcases l with _ | ⟨d, l⟩
  · exact ⟨a, b, c, rfl⟩
  · simp at h

theorem fpframe_reject_len9 (data : List Nat) (h : data.length = 9) :
    FpFrame.deserializeFpframe data = none := by
  rcases hd : FpFrame.deserializeFpframe data with _ | f
  · rfl
  exfalso
  obtain ⟨a, p, pk⟩ := f
  obtain ⟨-, -, -, -, -, hpacket, hplen, hcsum⟩ := deserializeWith_some hd
  simp only [] at hpacket
  have hnil : pk = [] := by
    rw [hpacket, h]
    apply List.drop_eq_nil_of_le
    have h7 := List.length_take_le (9 - 2) data
    omega
  subst hnil
  have hslice : pySlice data 7 9 = data.drop 7 := by
    rw [pySlice, ← h, List.take_length]
  have hl : FpFrame.length ⟨a, p, []⟩ = 2 := rfl
  rw [hslice, hl] at hplen
  rw [show data.length - 2 = 7 from by omega, FpFrame.checksum_nil] at hcsum
  have hb := FpPID.toNat_bounds p
  omega

theorem fpframe_reject_len10 (data : List Nat) (h : data.length = 10) :
    FpFrame.deserializeFpframe data = none := by
  rcases hd : FpFrame.deserializeFpframe data with _ | f
  · rfl
  exfalso
  obtain ⟨a, p, pk⟩ := f
  obtain ⟨-, -, -, -, -, hpacket, hplen, hcsum⟩ := deserializeWith_some hd
  simp only [] at hpacket
  have hnil : pk = [] := by
    rw [hpacket, h]
    apply List.drop_eq_nil_of_le
    have h8 := List.length_take_le (10 - 2) data
    omega
  subst hnil
  obtain ⟨d7, d8, d9, hu⟩ := list_len3 (data.drop 7) (by simp [h])
  have hslice : pySlice data 7 9 = [d7, d8] := by
    rw [pySlice, List.drop_take, hu]
    rfl
  have hdd : (data.drop 7).drop 1 = data.drop 8 := by
    rw [List.drop_drop]
  have htrail : data.drop (data.length - 2) = [d8, d9] := by
    rw [h, show (10 : Nat) - 2 = 8 from rfl, ← hdd, hu]
    rfl
  have hl : FpFrame.length ⟨a, p, []⟩ = 2 := rfl
  rw [hslice, fromBytesBE_pair, hl] at hplen
  rw [htrail, fromBytesBE_pair, FpFrame.checksum_nil] at hcsum
  have hb := FpPID.toNat_bounds p
  omega

/-- C9: Minimum-length rejection: every input shorter than 11 bytes is
rejected (returns `None`) by `FpFrame.deserialize` — in the `frame.py`
revision by the `LENGTH = 11` guard, and in the `fpframe.py` revision
(whose guard only requires 9 bytes) because no 9- or 10-byte input can pass
the length-field and checksum consistency checks. -/
theorem min_length_rejection (data : List Nat) (h : data.length < 11) :
    FpFrame.deserialize data = none ∧ FpFrame.deserializeFpframe data = none := by
  constructor
  · unfold FpFrame.deserialize deserializeWith
    rw [if_pos h]
  · rcases Nat.lt_or_ge data.length 9 with h9 | h9
    · unfold FpFrame.deserializeFpframe deserializeWith
      rw [if_pos h9]
    · have hc : data.length = 9 ∨ data.length = 10 := by omega
      rcases hc with h9 | h10
      · exact fpframe_reject_len9 data h9
      · exact fpframe_reject_len10 data h10

/-- Witness for C9 on a 9-byte input that carries a plausible header and pid. -/
theorem min_length_rejection_witness :
    ([0xEF, 0x01, 0xFF, 0xFF, 0xFF, 0xFF, 0x01, 0x00, 0x02] : List Nat).length < 11 ∧
    FpFrame.deserialize [0xEF, 0x01, 0xFF, 0xFF, 0xFF, 0xFF, 0x01, 0x00, 0x02] = none ∧
    FpFrame.deserializeFpframe [0xEF, 0x01, 0xFF, 0xFF, 0xFF, 0xFF, 0x01, 0x00, 0x02] = none :=
  ⟨by decide,
   (min_length_rejection [0xEF, 0x01, 0xFF, 0xFF, 0xFF, 0xFF, 0x01, 0x00, 0x02] (by decide)).1,
   (min_length_rejection [0xEF, 0x01, 0xFF, 0xFF, 0xFF, 0xFF, 0x01, 0x00, 0x02] (by decide)).2⟩

-- Error taxonomy (`FpError`, fpapi.py) and value-range enums.

namespace FpError

/-- Mirror of `FpError.SUCCESS`. -/
def SUCCESS : Nat := 0x00

/-- Mirror of `FpError.ERROR_PACKET_TRANSMISSION`. -/
def ERROR_PACKET_TRANSMISSION : Nat := 0x01

/-- Mirror of `FpError.ERROR_PACKET_RECEPTION`. -/
def ERROR_PACKET_RECEPTION : Nat := 0x0E

/-- Mirror of `FpError.ERROR_FINGER_NOT_FOUND`. -/
def ERROR_FINGER_NOT_FOUND : Nat := 0x09

/-- Mirror of `FpError.ERROR_ADDRESS`. -/
def ERROR_ADDRESS : Nat := 0x20

/-- Mirror of `FpError.ERROR_PASSWORD_VERIFY`. -/
def ERROR_PASSWORD_VERIFY : Nat := 0x21

/-- Modelled from the spec: `HANDSHAKE_SUCCESS` is a member of the `FpError`
enum in `api.py`, the revision of the API module that `sdk.py` imports but
that is not under `src/` (`fpapi.py`, the revision that is, predates it). The
spec names it as the handshake success code distinct from `SUCCESS`; its
concrete byte (0x55 on the R30x family) does not affect any theorem below. -/
def HANDSHAKE_SUCCESS : Nat := 0x55

/-- Mirror of `FpError.has_value` over all member bytes of `fpapi.py`, plus
the spec-modelled `HANDSHAKE_SUCCESS`. -/
def hasValue (v : Nat) : Bool :=
  [0x00, 0x1A, 0x1B, 0x1C, 0x01, 0x0E, 0xFE, 0x02, 0x03, 0x08, 0x09,
   0x06, 0x15, 0x07, 0x0F, 0x0A, 0x0B, 0x0C, 0x0D, 0x10, 0x11, 0x18,
   0xFF, 0x19, 0x1D, 0x20, 0x13, 0x21, 0x55].contains v

end FpError

/-- Mirror of `FpSecurity.has_value`: member bytes 1..5. -/
def FpSecurity.hasValue (v : Nat) : Bool :=
  [1, 2, 3, 4, 5].contains v

/-- Mirror of `FpPacketSize.has_value`: member bytes 0..3. -/
def FpPacketSize.hasValue (v : Nat) : Bool :=
  [0, 1, 2, 3].contains v

/-- Mirror of `FpBaudrate.has_value`: member bytes 1..12. -/
def FpBaudrate.hasValue (v : Nat) : Bool :=
  [1, 2, 3, 4, 5, 6, 7, 8, 9, 10, 11, 12].contains v

/-- Mirror of the `FpSystemParameters` dataclass (fpapi.py:238-258); the enum
fields carry their byte values. -/
structure FpSystemParameters where
  status : Nat
  id : Nat
  address : Nat
  capacity : Nat
  packet : Nat
  security : Nat
  baudrate : Nat
deriving DecidableEq

/-- Mirror of `FpSystemParameters.deserialize` (fpapi.py:271-307).
`Except.ok none` models `return None`, `Except.ok (some p)` a parsed result,
and `Except.error ()` a raised `ValueError`. The control flow mirrors the
source exactly: the check on line 291 (commented `# Check packet size`) tests
`FpPacketSize.has_value` on `_baud`, not on `_pack`, and the constructor call
`FpPacketSize(_pack)` on line 305 is unguarded, so an out-of-range `_pack`
raises where the other enum constructions are guarded. -/
def FpSystemParameters.deserialize (data : List Nat) :
    Except Unit (Option FpSystemParameters) :=
  if data.length < 16 then .ok none
  else
    let _stat := fromBytesBE (pySlice data 0 2)
    let _id := fromBytesBE (pySlice data 2 4)
    let _cap := fromBytesBE (pySlice data 4 6)
    let _sec := fromBytesBE (pySlice data 6 8)
    let _addr := fromBytesBE (pySlice data 8 12)
    let _pack := fromBytesBE (pySlice data 12 14)
    let _baud := fromBytesBE (pySlice data 14 16)
    if ¬ FpSecurity.hasValue _sec then .ok none
    else if ¬ FpPacketSize.hasValue _baud then .ok none
    else if ¬ FpBaudrate.hasValue _baud then .ok none
    else if ¬ FpPacketSize.hasValue _pack then .error ()
    else .ok (some
      { status := 0x0F &&& _stat
        id := _id
        capacity := _cap
        security := _sec
        address := _addr
        packet := _pack
        baudrate := _baud })

/-- C6 (code evaluated at the failing input): the 16-byte block with
`security = 1`, `packet_size = 2`, `baudrate = 5` — in range on every field the
claim names — is rejected with `None`, because fpapi.py:291 validates the
packet-size range against the baudrate field; and a block with valid security
and baudrate but `packet_size = 7` raises `ValueError` instead of returning
`None`. A fully in-range block (baudrate 2) decodes to the claimed layout with
the status word masked by `0x0F`. -/
theorem system_parameters_decode_bug :
    FpSystemParameters.deserialize
      [0, 0, 0, 0, 0, 0, 0, 1, 0, 0, 0, 0, 0, 2, 0, 5] = .ok none ∧
    FpSystemParameters.deserialize
      [0, 0, 0, 0, 0, 0, 0, 1, 0, 0, 0, 0, 0, 7, 0, 2] = .error () ∧
    FpSystemParameters.deserialize
      [0xAB, 0xCD, 0x00, 0x07, 0x01, 0x00, 0x00, 0x03,
       0xDE, 0xAD, 0xBE, 0xEF, 0x00, 0x01, 0x00, 0x02] =
      .ok (some
        { status := 0x0D, id := 0x0007, capacity := 0x0100, security := 0x03
          address := 0xDEADBEEF, packet := 0x01, baudrate := 0x02 }) := by
  exact ⟨rfl, rfl, rfl⟩

-- SDK transaction layer (sdk.py).

/-- Modelled from the spec: `to_bytes(value=v, size=n)` lives in `api.py`, the
API-module revision that `sdk.py` imports but that is not under `src/`
(`fpapi.py`, the revision that is, predates it). Per the spec's wire format
multi-byte integers are big-endian over a fixed width, and like `int.to_bytes`
the conversion fails (`OverflowError`, modelled `.error ()`) when the value
does not fit the requested size. -/
def to_bytes (value size : Nat) : Except Unit (List Nat) :=
  if value < 256 ^ size then .ok (toBytesBE size value) else .error ()

/-- Mirror of `FpSDK._value_check` (sdk.py:785-799): the address/password
range check; `.error ()` models the raised `ValueError`. -/
def FpSDK.value_check (value : Nat) : Except Unit Nat :=
  if 0xFFFFFFFF < value then .error () else .ok value

/-- Mirror of `FpSDK._value_set` (sdk.py:743-754) composed with the packet
construction of `FpSDK._command_get` (sdk.py:654): the command packet put on
the wire for a value-setting command is `[command] ++ value_bytes`, where the
source builds `value_bytes` as `to_bytes(value=self._value_check(value=value),
size=2)` — a 2-byte encoding. -/
def FpSDK.valueSetPacket (command value : Nat) : Except Unit (List Nat) := do
  let v ← FpSDK.value_check value
  let b ← to_bytes v 2
  return command :: b

/-- C7 (code evaluated at the failing input): assigning address 1 transmits
the ADDRESS_SET (0x15) command with the 2-byte payload `[0x00, 0x01]`, not the
4-byte big-endian u32 the claim states, and any address of 0x10000 or more
overflows the 2-byte encoding and raises instead of transmitting. -/
theorem address_set_payload_bug :
    FpSDK.valueSetPacket 0x15 1 = .ok [0x15, 0x00, 0x01] ∧
    FpSDK.valueSetPacket 0x15 0x00010000 = .error () :=
  ⟨rfl, rfl⟩

/-- Mirror of the acknowledgement-code handling of `FpSDK._command_get`
(sdk.py:663-669 and 681-683) applied to `resp.packet[0]`: the enum
construction `FpError(resp.packet[0])` raises `ValueError` on a byte that is
no member; the three fatal codes raise `FpSDK.Exception`; and every remaining
code other than `SUCCESS` / `HANDSHAKE_SUCCESS` raises `FpSDK.Exception` as
a transaction error. The `.error` value carries the offending byte. -/
def commandGetCheck (code : Nat) : Except Nat Unit :=
  if ¬ FpError.hasValue code then .error code
  else if code = FpError.ERROR_PACKET_TRANSMISSION then .error code
  else if code = FpError.ERROR_ADDRESS then .error code
  else if code = FpError.ERROR_PASSWORD_VERIFY then .error code
  else if ¬ (code = FpError.SUCCESS ∨ code = FpError.HANDSHAKE_SUCCESS) then .error code
  else .ok ()

/-- Mirror of `FpSDK.match_1_n`'s response handling (sdk.py:495-499): the ack
packet is vetted by `_command_get`, then the result is
`(from_bytes(packet[1:3]), from_bytes(packet[3:5]))`. `from_bytes` is from
the missing `api.py`; modelled from the spec as big-endian decoding. -/
def match_1_n (ackPacket : List Nat) : Except Nat (Nat × Nat) := do
  let _ ← commandGetCheck (ackPacket.getD 0 0)
  return (fromBytesBE (pySlice ackPacket 1 3), fromBytesBE (pySlice ackPacket 3 5))

/-- C8 counterexample: an acknowledgement carrying `ERROR_FINGER_NOT_FOUND`
(0x09) with index/score bytes makes `match_1_n` raise (error 0x09 propagates
out of `_command_get`); no sentinel result is returned. -/
theorem match_1_n_not_found_raises :
    match_1_n [0x09, 0x00, 0x05, 0x00, 0x07] = .error 0x09 := rfl

/-- C8 (amended): when the acknowledgement code is `ERROR_FINGER_NOT_FOUND`,
`match_1_n` does not return a sentinel; the `FpSDK.Exception` raised by
`_command_get` (sdk.py:681-683) propagates to the caller. -/
theorem match_1_n_not_found (ackPacket : List Nat)
    (h : ackPacket.getD 0 0 = 0x09) :
    match_1_n ackPacket = .error 0x09 := by
  have h9 : ackPacket[0]?.getD 0 = 0x09 := by
    rw [← List.getD_eq_getElem?_getD]
    exact h
  simp [match_1_n, commandGetCheck, h9, FpError.hasValue,
    FpError.ERROR_PACKET_TRANSMISSION, FpError.ERROR_ADDRESS,
    FpError.ERROR_PASSWORD_VERIFY, FpError.SUCCESS, FpError.HANDSHAKE_SUCCESS]

/-- Witness for C8's amended statement at a concrete acknowledgement. -/
theorem match_1_n_not_found_witness :
    match_1_n [0x09, 0x00, 0x02, 0x00, 0x63] = .error 0x09 :=
  match_1_n_not_found [0x09, 0x00, 0x02, 0x00, 0x63] rfl

theorem commandGetCheck_ok {code : Nat} {u : Unit}
    (h : commandGetCheck code = .ok u) :
    code = FpError.SUCCESS ∨ code = FpError.HANDSHAKE_SUCCESS := by
  unfold commandGetCheck at h
  split at h
  · exact absurd h (by simp)
  split at h
  · exact absurd h (by simp)
  split at h
  · exact absurd h (by simp)
  split at h
  · exact absurd h (by simp)
  split at h
  · exact absurd h (by simp)
  · rename_i hcond
    exact not_not.mp hcond

/-- Mirror of `FpSDK._command_set` (sdk.py:697-700): `_command_get` has
already vetted the acknowledgement code, and `succ` is recomputed from that
same byte as `code == SUCCESS or code == HANDSHAKE_SUCCESS`. -/
def commandSetSucc (code : Nat) : Except Nat Bool := do
  let _ ← commandGetCheck code
  return decide (code = FpError.SUCCESS ∨ code = FpError.HANDSHAKE_SUCCESS)

/-- C10: bool-returning commands never return `False`: whenever
`_command_set` returns (rather than raises), the boolean it returns is
`True`, because `_command_get` raises on every acknowledgement code other
than SUCCESS / HANDSHAKE_SUCCESS before the boolean is computed from that
same code. -/
theorem bool_commands_never_false (code : Nat) (b : Bool)
    (h : commandSetSucc code = .ok b) : b = true := by
  rcases hc : commandGetCheck code with e | u
  · rw [commandSetSucc] at h
    simp [hc] at h
  · have hok := commandGetCheck_ok hc
    rw [commandSetSucc] at h
    simp [hc] at h
    simp [← h, hok]

/-- Witness for C10 at the SUCCESS acknowledgement code. -/
theorem bool_commands_never_false_witness : (true : Bool) = true :=
  bool_commands_never_false 0x00 true rfl

/-- Mirror of the inner `wait_ack_logic` of `FpSDK._command_get`
(sdk.py:630-635): the predicate handed to `transmit`; it discards `sent`
(`_ = sent`) and accepts any received frame whose pid is ACK — the receive
address is not consulted. -/
def waitAckLogic (sent recv : FpFrame) : Bool :=
  let _ := sent
  recv.pid == FpPID.ACK

/-- Model of `transmit(send=send, logic=wait_ack_logic)` followed by the
response check of `FpSDK._command_get` (sdk.py:655-657): `received` is the
sequence of frames arriving inside the response window (5 s, enforced by the
external `embutils` transmit primitive), in arrival order; the one-shot
subscriber resolves to the first frame satisfying the predicate, and a missing
response makes `_command_get` raise `ERROR_PACKET_RECEPTION`. -/
def commandGetAck (sent : FpFrame) (received : List FpFrame) : Except Nat FpFrame :=
  match received.find? (fun recv => waitAckLogic sent recv) with
  | some f => .ok f
  | none => .error FpError.ERROR_PACKET_RECEPTION

/-- C2 counterexample: with session address `0xFFFFFFFF`, an ACK frame
carrying the foreign device address `0x01020304` is accepted as the
acknowledgement of the command — the claim says such a frame is never
accepted. -/
theorem ack_wrong_address_accepted :
    commandGetAck ⟨0xFFFFFFFF, FpPID.COMMAND, [0x01]⟩
      [⟨0x01020304, FpPID.ACK, [0x00]⟩] =
      .ok ⟨0x01020304, FpPID.ACK, [0x00]⟩ ∧
    (0x01020304 : Nat) ≠ 0xFFFFFFFF := by
  exact ⟨rfl, by norm_num⟩

theorem find?_append_first {α : Type} (p : α → Bool) (pre post : List α)
    (h : ∀ g ∈ pre, p g = false) :
    (pre ++ post).find? p = post.find? p := by
  induction pre with
  | nil => rfl
  | cons a t ih =>
    have ha := h a (by simp)
    simp only [List.cons_append, List.find?_cons, ha]
    exact ih (fun g hg => h g (by simp [hg]))

/-- C2 (amended): the frame returned as the acknowledgement is the first
frame received after transmission whose pid is ACK, regardless of the
frame's address; and when no ACK-pid frame arrives within the response
window the call raises the reception-failure error `ERROR_PACKET_RECEPTION`. -/
theorem ack_pairing (sent f : FpFrame) (pre post : List FpFrame)
    (hpre : ∀ g ∈ pre, g.pid ≠ FpPID.ACK) (hf : f.pid = FpPID.ACK) :
    commandGetAck sent (pre ++ f :: post) = .ok f ∧
    ∀ received : List FpFrame, (∀ g ∈ received, g.pid ≠ FpPID.ACK) →
      commandGetAck sent received = .error FpError.ERROR_PACKET_RECEPTION := by
  constructor
  · unfold commandGetAck
    rw [find?_append_first _ pre _ (fun g hg => by
      simpa [waitAckLogic] using hpre g hg)]
    simp [List.find?_cons, waitAckLogic, hf]
  · intro received hrec
    unfold commandGetAck
    have hnone : received.find? (fun recv => waitAckLogic sent recv) = none := by
      rw [List.find?_eq_none]
      intro g hg
      simpa [waitAckLogic] using hrec g hg
    rw [hnone]

/-- Witness for C2's amended statement: a DATA frame precedes the ACK; the
ACK is returned. -/
theorem ack_pairing_witness :
    commandGetAck ⟨0xFFFFFFFF, FpPID.COMMAND, [0x53]⟩
      [⟨0xFFFFFFFF, FpPID.DATA, []⟩, ⟨0xFFFFFFFF, FpPID.ACK, [0x00]⟩] =
      .ok ⟨0xFFFFFFFF, FpPID.ACK, [0x00]⟩ :=
  (ack_pairing ⟨0xFFFFFFFF, FpPID.COMMAND, [0x53]⟩ ⟨0xFFFFFFFF, FpPID.ACK, [0x00]⟩
    [⟨0xFFFFFFFF, FpPID.DATA, []⟩] [] (by decide) rfl).1

-- Outbound bulk fragmentation (`FpSDK._command_set`, sdk.py:703-718).

/-- Mirror of the bulk-transmission loop of `FpSDK._command_set`
(sdk.py:703-718): the ordered sequence of `(pid, payload)` bulk frames
transmitted for non-empty outbound `data` and session packet size
`packSize`. `pack_num = (data_size // pack_size) + int(data_size % pack_size > 0)`;
the loop sends `pack_num - 1` DATA frames `data[idx*P : idx*P+P]` and then one
END_OF_DATA frame `data[end:]`, where `end` is `(pack_num - 1) * P` when the
loop ran and `0` otherwise (the two coincide over `Nat`). Each frame goes to
`transmit(send=frame)` with no response predicate: no per-piece ACK wait. -/
def commandSetFragments (data : List Nat) (packSize : Nat) : List (FpPID × List Nat) :=
  let dataSize := data.length
  let packNum := dataSize / packSize + (if dataSize % packSize > 0 then 1 else 0)
  ((List.range (packNum - 1)).map
    (fun idx => (FpPID.DATA, pySlice data (idx * packSize) (idx * packSize + packSize))))
  ++ [(FpPID.END_OF_DATA, data.drop ((packNum - 1) * packSize))]

theorem pySlice_eq_drop_take (l : List Nat) (a b : Nat) :
    pySlice l a b = (l.drop a).take (b - a) := by
  rw [pySlice, List.drop_take]

theorem pySlice_zero (l : List Nat) (b : Nat) : pySlice l 0 b = l.take b := by
  rw [pySlice, List.drop_zero]

theorem getLast?_cons_ne {α : Type} (x : α) (l : List α) (h : l ≠ []) :
    (x :: l).getLast? = l.getLast? := by
  rcases l with _ | ⟨a, t⟩
  · exact absurd rfl h
  · rfl

theorem packNum_eq_ceil (n P : Nat) (hP : 0 < P) :
    n / P + (if n % P > 0 then 1 else 0) = (n + P - 1) / P := by
  have hr : n % P < P := Nat.mod_lt _ hP
  have hq := Nat.div_add_mod n P
  rcases Nat.eq_zero_or_pos (n % P) with h | h
  · rw [if_neg (by omega)]
    have he : n + P - 1 = P * (n / P) + (P - 1) := by omega
    rw [he, Nat.mul_add_div hP, Nat.div_eq_of_lt (show P - 1 < P by omega)]
  · rw [if_pos (by omega)]
    have hmul : P * (n / P + 1) = P * (n / P) + P := by ring
    have he : n + P - 1 = P * (n / P + 1) + (n % P - 1) := by omega
    rw [he, Nat.mul_add_div hP,
      Nat.div_eq_of_lt (show n % P - 1 < P by omega)]

theorem commandSetFragments_step (data : List Nat) (P : Nat) (hP : 0 < P)
    (h : P < data.length) :
    commandSetFragments data P =
      (FpPID.DATA, data.take P) :: commandSetFragments (data.drop P) P := by
  have hm : (List.drop P data).length = data.length - P := by simp
  have hdl : data.length = (data.length - P) + P := by omega
  have hdiv : data.length / P = (data.length - P) / P + 1 := by
    conv_lhs => rw [hdl]
    rw [Nat.add_div_right _ hP]
  have hmod : data.length % P = (data.length - P) % P := by
    conv_lhs => rw [hdl]
    rw [Nat.add_mod_right]
  have hkm1 : 1 ≤ (data.length - P) / P +
      (if (data.length - P) % P > 0 then 1 else 0) := by
    rcases Nat.eq_zero_or_pos ((data.length - P) % P) with h0 | h0
    · have hple : P ≤ data.length - P := by
        rcases Nat.lt_or_ge (data.length - P) P with hc | hc
        · rw [Nat.mod_eq_of_lt hc] at h0
          omega
        · exact hc
      have h1 := (Nat.one_le_div_iff hP).mpr hple
      omega
    · rw [if_pos (show (data.length - P) % P > 0 by omega)]
      exact Nat.le_add_left 1 _
  obtain ⟨k, hk⟩ : ∃ k, (data.length - P) / P +
      (if (data.length - P) % P > 0 then 1 else 0) = k + 1 :=
    ⟨(data.length - P) / P + (if (data.length - P) % P > 0 then 1 else 0) - 1,
     by omega⟩
  have hpnL : data.length / P + (if data.length % P > 0 then 1 else 0) =
      (k + 1) + 1 := by
    rw [hdiv, hmod]
    omega
  simp only [commandSetFragments, hm, hpnL, hk]
  rw [show (k + 1) + 1 - 1 = k + 1 from rfl, show k + 1 - 1 = k from rfl]
  rw [List.range_succ_eq_map, List.map_cons, List.map_map]
  rw [List.cons_append]
  congr 1
  · simp [pySlice_zero]
  congr 1
  · apply List.map_congr_left
    intro i _
    simp only [Function.comp, Nat.succ_eq_add_one]
    congr 1
    rw [pySlice_eq_drop_take, pySlice_eq_drop_take, List.drop_drop]
    have h1 : (i + 1) * P + P - (i + 1) * P = P := by omega
    have h2 : i * P + P - i * P = P := by omega
    have h3 : P + i * P = (i + 1) * P := by ring
    rw [h1, h2, h3]
  · congr 1
    rw [List.drop_drop]
    congr 1
    ring

theorem commandSetFragments_small (data : List Nat) (P : Nat) (hP : 0 < P)
    (hne : data ≠ []) (h : data.length ≤ P) :
    commandSetFragments data P = [(FpPID.END_OF_DATA, data)] := by
  have hn : 0 < data.length := List.length_pos.mpr hne
  have hpn : data.length / P + (if data.length % P > 0 then 1 else 0) = 1 := by
    rcases Nat.lt_or_ge data.length P with hlt | hge
    · rw [Nat.div_eq_of_lt hlt, Nat.mod_eq_of_lt hlt, if_pos (by omega)]
    · have he : data.length = P := by omega
      rw [he, Nat.div_self hP, Nat.mod_self, if_neg (by omega)]
  simp [commandSetFragments, hpn]

/-- C4: Outbound fragmentation: for non-empty outbound data and a positive
session packet size `P`, `_command_set` transmits exactly
`ceil(len(data) / P)` bulk frames in order: all but the last have pid DATA
and carry exactly `P` bytes, the last has pid END_OF_DATA and carries the
remaining bytes (all of the data when it fits in one packet), and the
concatenation of the transmitted payloads is the data. Each frame goes
through `transmit(send=frame)` without a wait predicate, so no per-piece ACK
is awaited. -/
theorem outbound_fragmentation (data : List Nat) (P : Nat)
    (hne : data ≠ []) (hP : 0 < P) :
    (commandSetFragments data P).length = (data.length + P - 1) / P ∧
    (∀ pl ∈ (commandSetFragments data P).dropLast,
        pl.1 = FpPID.DATA ∧ pl.2.length = P) ∧
    (commandSetFragments data P).getLast? =
      some (FpPID.END_OF_DATA,
        data.drop (((data.length + P - 1) / P - 1) * P)) ∧
    (data.length ≤ P → commandSetFragments data P = [(FpPID.END_OF_DATA, data)]) ∧
    ((commandSetFragments data P).map Prod.snd).flatten = data := by
  suffices H : ∀ n (data : List Nat), data.length = n → data ≠ [] →
      (commandSetFragments data P).length = (data.length + P - 1) / P ∧
      (∀ pl ∈ (commandSetFragments data P).dropLast,
          pl.1 = FpPID.DATA ∧ pl.2.length = P) ∧
      (commandSetFragments data P).getLast? =
        some (FpPID.END_OF_DATA,
          data.drop (((data.length + P - 1) / P - 1) * P)) ∧
      (data.length ≤ P →
        commandSetFragments data P = [(FpPID.END_OF_DATA, data)]) ∧
      ((commandSetFragments data P).map Prod.snd).flatten = data by
    exact H data.length data rfl hne
  intro n
  induction n using Nat.strong_induction_on with
  | _ n ih =>
    intro data hlen hne
    rcases le_or_lt data.length P with hle | hlt
    · have hfr := commandSetFragments_small data P hP hne hle
      have hn0 : 0 < data.length := List.length_pos.mpr hne
      have hceil : (data.length + P - 1) / P = 1 := by
        apply Nat.div_eq_of_lt_le
        · omega
        · omega
      rw [hfr, hceil]
      refine ⟨rfl, ?_, ?_, fun _ => rfl, ?_⟩
      · intro pl hpl
        simp at hpl
      · simp
      · simp
    · have hstep := commandSetFragments_step data P hP hlt
      have hdne : data.drop P ≠ [] := by
        intro hc
        have := congrArg List.length hc
        simp at this
        omega
      have hmlt : (data.drop P).length < n := by
        simp
        omega
      obtain ⟨ih1, ih2, ih3, ih4, ih5⟩ :=
        ih (data.drop P).length hmlt (data.drop P) rfl hdne
      have hceil : (data.length + P - 1) / P =
          ((data.drop P).length + P - 1) / P + 1 := by
        have hd : (data.drop P).length = data.length - P := by simp
        rw [hd]
        have he : data.length + P - 1 = ((data.length - P) + P - 1) + P := by
          omega
        rw [he, Nat.add_div_right _ hP]
      set k2 := ((data.drop P).length + P - 1) / P with hk2
      have hk2pos : 1 ≤ k2 := by
        rw [hk2, Nat.one_le_div_iff hP]
        have : 0 < (data.drop P).length := List.length_pos.mpr hdne
        omega
      have hfrne : commandSetFragments (data.drop P) P ≠ [] := by
        intro hc
        rw [hc] at ih3
        simp at ih3
      refine ⟨?_, ?_, ?_, ?_, ?_⟩
      · rw [hstep, hceil]
        simp [ih1]
      · rw [hstep, List.dropLast_cons_of_ne_nil hfrne]
        intro pl hpl
        rcases List.mem_cons.mp hpl with rfl | hmem
        · refine ⟨rfl, ?_⟩
          simp [List.length_take]
          omega
        · exact ih2 pl hmem
      · rw [hstep, getLast?_cons_ne _ _ hfrne, ih3, hceil, List.drop_drop]
        have hx : P + (k2 - 1) * P = (k2 + 1 - 1) * P := by
          obtain ⟨j, hj⟩ : ∃ j, k2 = j + 1 := ⟨k2 - 1, by omega⟩
          rw [hj]
          simp
          ring
        rw [hx]
      · intro hcontra
        exact absurd hcontra (by omega)
      · rw [hstep, List.map_cons, List.flatten_cons, ih5,
          List.take_append_drop]

/-- Witness for C4: five bytes with packet size 2 fragment into three frames
whose payloads concatenate back to the data. -/
theorem outbound_fragmentation_witness :
    (commandSetFragments [1, 2, 3, 4, 5] 2).length = 3 ∧
    ((commandSetFragments [1, 2, 3, 4, 5] 2).map Prod.snd).flatten =
      [1, 2, 3, 4, 5] :=
  ⟨(outbound_fragmentation [1, 2, 3, 4, 5] 2 (by decide) (by decide)).1,
   (outbound_fragmentation [1, 2, 3, 4, 5] 2 (by decide) (by decide)).2.2.2.2⟩

-- Bulk-data wait (`FpSDK._command_get` with `data_wait=True`, sdk.py:637-678).

/-- Mirror of the nonlocal state of `wait_data_logic` (sdk.py:626-627):
the assembly buffer `data_buff` and the completion flag `data_ok`. -/
structure WaitState where
  dataBuff : List Nat
  dataOk : Bool
deriving DecidableEq

/-- Mirror of the inner `wait_data_logic` handler (sdk.py:637-647), the
subscriber temporarily installed on `on_frame_received`: when the received
frame's pid is DATA or END_OF_DATA it resets the watchdog origin
`time_start` (the returned flag) and extends `data_buff` with the frame
packet; when the pid is END_OF_DATA it also sets `data_ok`. -/
def waitDataLogic (frame : FpFrame) (s : WaitState) : WaitState × Bool :=
  let is_data := frame.pid == FpPID.DATA
  let is_end := frame.pid == FpPID.END_OF_DATA
  if is_data || is_end then
    ({ dataBuff := s.dataBuff ++ frame.packet
       dataOk := s.dataOk || is_end }, true)
  else (s, false)

/-- Outcome of the bulk wait (sdk.py:672-678): the handler is unsubscribed
from `on_frame_received` (line 676) before either exit, so both constructors
carry the unsubscription flag; `timeout` models the raised `TimeoutError`
(line 678), `success` the fall-through with the assembled buffer. -/
inductive WaitOutcome where
  | success (dataBuff : List Nat) (unsubscribed : Bool)
  | timeout (unsubscribed : Bool)
deriving DecidableEq

/-- Unsubscription flag of an outcome. -/
def WaitOutcome.unsub : WaitOutcome → Bool
  | .success _ u => u
  | .timeout u => u

/-- Discrete-time mirror of the wait loop of `_command_get`
(`while not data_ok and (time_elapsed(start=time_start) < RESPONSE_TIMEOUT_S):
time.sleep(0.01)`, sdk.py:672-678): one recursion step per 10 ms tick, `T`
the timeout in ticks (500 for `RESPONSE_TIMEOUT_S = 5.0`), `w` the ticks
elapsed since the watchdog origin `time_start`, and `events` the arrival
schedule (at most one frame per tick; the handler runs on the reader thread
and resets the watchdog via `waitDataLogic`). An exhausted schedule means no
further frame ever arrives, after which the loop condition can only run the
watchdog out, folded here to the `timeout` outcome. -/
def waitData (T : Nat) : List (Option FpFrame) → WaitState → Nat → WaitOutcome
  | [], s, _ =>
    if s.dataOk then .success s.dataBuff true
    else .timeout true
  | e :: rest, s, w =>
    if s.dataOk then .success s.dataBuff true
    else if T ≤ w then .timeout true
    else
      match e with
      | none => waitData T rest s (w + 1)
      | some f =>
        match waitDataLogic f s with
        | (s2, reset) => waitData T rest s2 (if reset then 0 else w + 1)

/-- Does an arrival-schedule entry carry an END_OF_DATA frame? -/
def isEndFrame : Option FpFrame → Bool
  | some f => f.pid == FpPID.END_OF_DATA
  | none => false

theorem waitData_unsub (T : Nat) (events : List (Option FpFrame))
    (s : WaitState) (w : Nat) : (waitData T events s w).unsub = true := by
  induction events generalizing s w with
  | nil =>
    cases hok : s.dataOk <;> simp [waitData, hok, WaitOutcome.unsub]
  | cons e rest ih =>
    simp only [waitData]
    split
    · rfl
    split
    · rfl
    cases e with
    | none => exact ih s (w + 1)
    | some f =>
      rcases hl : waitDataLogic f s with ⟨s2, reset⟩
      simp only [hl]
      exact ih s2 _

theorem waitDataLogic_ok (f : FpFrame) (s : WaitState)
    (h : ((waitDataLogic f s).1).dataOk = true) :
    s.dataOk = true ∨ f.pid = FpPID.END_OF_DATA := by
  cases hp : f.pid <;> simp [waitDataLogic, hp] at h <;> simp [h]

theorem waitDataLogic_resets (f : FpFrame) (s : WaitState)
    (h : f.pid = FpPID.DATA ∨ f.pid = FpPID.END_OF_DATA) :
    (waitDataLogic f s).2 = true ∧
    ((waitDataLogic f s).1).dataBuff = s.dataBuff ++ f.packet ∧
    (f.pid = FpPID.END_OF_DATA → ((waitDataLogic f s).1).dataOk = true) := by
  rcases h with h | h <;> simp [waitDataLogic, h]

theorem waitDataLogic_not_end (f : FpFrame) (s : WaitState)
    (h : ¬ f.pid = FpPID.END_OF_DATA) :
    ((waitDataLogic f s).1).dataOk = s.dataOk := by
  cases hp : f.pid <;> simp [waitDataLogic, hp] <;> exact absurd hp h

theorem waitData_success_end (T : Nat) (events : List (Option FpFrame))
    (s : WaitState) (w : Nat) (b : List Nat) (u : Bool)
    (h : waitData T events s w = .success b u) :
    s.dataOk = true ∨ ∃ e ∈ events, isEndFrame e = true := by
  induction events generalizing s w with
  | nil =>
    rw [waitData] at h
    split at h
    · left
      assumption
    · exact absurd h (by simp)
  | cons e rest ih =>
    cases e with
    | none =>
      simp only [waitData] at h
      split at h
      · left
        assumption
      split at h
      · exact absurd h (by simp)
      rcases ih _ _ h with hs | ⟨e2, he2, hend⟩
      · exact Or.inl hs
      · exact Or.inr ⟨e2, by simp [he2], hend⟩
    | some f =>
      simp only [waitData] at h
      split at h
      · left
        assumption
      split at h
      · exact absurd h (by simp)
      rcases hl : waitDataLogic f s with ⟨s2, reset⟩
      simp only [hl] at h
      rcases ih _ _ h with hs | ⟨e2, he2, hend⟩
      · have hs2 : ((waitDataLogic f s).1).dataOk = true := by
          rw [hl]
          exact hs
        rcases waitDataLogic_ok f s hs2 with h1 | h1
        · exact Or.inl h1
        · exact Or.inr ⟨some f, by simp, by simp [isEndFrame, h1]⟩
      · exact Or.inr ⟨e2, by simp [he2], hend⟩

theorem waitData_no_end_timeout (T : Nat) (events : List (Option FpFrame))
    (s : WaitState) (w : Nat) (hs : s.dataOk = false)
    (hev : ∀ e ∈ events, isEndFrame e = false) :
    waitData T events s w = .timeout true := by
  induction events generalizing s w with
  | nil => simp [waitData, hs]
  | cons e rest ih =>
    cases e with
    | none =>
      simp only [waitData, hs]
      rw [if_neg (by simp)]
      split
      · rfl
      exact ih s (w + 1) hs (fun e2 he2 => hev e2 (by simp [he2]))
    | some f =>
      simp only [waitData, hs]
      rw [if_neg (by simp)]
      split
      · rfl
      rcases hl : waitDataLogic f s with ⟨s2, reset⟩
      simp only [hl]
      have hf : ¬ f.pid = FpPID.END_OF_DATA := by
        have := hev (some f) (by simp)
        simpa [isEndFrame] using this
      have hs2 : s2.dataOk = false := by
        have h2 := waitDataLogic_not_end f s hf
        rw [hl] at h2
        rw [show (s2, reset).1 = s2 from rfl] at h2
        rw [h2, hs]
      exact ih s2 _ hs2 (fun e2 he2 => hev e2 (by simp [he2]))

theorem waitData_cons_reset (T : Nat) (rest : List (Option FpFrame))
    (f : FpFrame) (s s2 : WaitState) (w : Nat)
    (hok : s.dataOk = false) (hw : w < T)
    (hl : waitDataLogic f s = (s2, true)) :
    waitData T (some f :: rest) s w = waitData T rest s2 0 := by
  simp only [waitData, hok]
  rw [if_neg (by simp), if_neg (by omega), hl]
  rfl

theorem waitData_run_all (T : Nat) (hT : 0 < T) (n : Nat)
    (dataF endF : FpFrame) (hd : dataF.pid = FpPID.DATA)
    (he : endF.pid = FpPID.END_OF_DATA) (buff : List Nat) :
    waitData T (List.replicate n (some dataF) ++ [some endF]) ⟨buff, false⟩ 0 =
      .success ((buff ++ (List.replicate n dataF.packet).flatten) ++ endF.packet)
        true := by
  induction n generalizing buff with
  | zero =>
    rw [show List.replicate 0 (some dataF) ++ [some endF] = [some endF] from rfl]
    rw [waitData_cons_reset T [] endF ⟨buff, false⟩ ⟨buff ++ endF.packet, true⟩ 0
      rfl hT (by simp [waitDataLogic, he])]
    rw [waitData]
    simp
  | succ n ih =>
    rw [show List.replicate (n + 1) (some dataF) ++ [some endF] =
        some dataF :: (List.replicate n (some dataF) ++ [some endF]) from by
      simp [List.replicate_succ]]
    rw [waitData_cons_reset T _ dataF ⟨buff, false⟩ ⟨buff ++ dataF.packet, false⟩ 0
      rfl hT (by simp [waitDataLogic, hd])]
    rw [ih (buff ++ dataF.packet)]
    simp [List.replicate_succ]

/-- C3: Bulk-wait and timeout, over the discrete-time model of the wait loop
(one tick per iteration of sdk.py:674-675): (1) on both the success path and
the timeout path the bulk handler is unsubscribed before the wait returns or
raises (sdk.py:676 precedes 677-678); (2) every received DATA or END_OF_DATA
frame resets the watchdog clock and appends its payload, and END_OF_DATA
marks completion; (3) the wait returns successfully only when completion was
marked by an END_OF_DATA frame (or beforehand); (4) when no END_OF_DATA
frame ever arrives the wait ends in the raised bulk-timeout error, again
with the handler unsubscribed; and (5) for every n, a schedule of n DATA
frames followed by one END_OF_DATA succeeds with the concatenation of the
payloads — total transfer time is unbounded, because only quiescence of T
consecutive frameless ticks can run the watchdog out. -/
theorem bulk_wait_contract (T : Nat) (hT : 0 < T) :
    (∀ events s w, (waitData T events s w).unsub = true) ∧
    (∀ (f : FpFrame) (s : WaitState),
      f.pid = FpPID.DATA ∨ f.pid = FpPID.END_OF_DATA →
      (waitDataLogic f s).2 = true ∧
      ((waitDataLogic f s).1).dataBuff = s.dataBuff ++ f.packet ∧
      (f.pid = FpPID.END_OF_DATA → ((waitDataLogic f s).1).dataOk = true)) ∧
    (∀ events s w b u, waitData T events s w = .success b u →
      s.dataOk = true ∨ ∃ e ∈ events, isEndFrame e = true) ∧
    (∀ events s w, s.dataOk = false → (∀ e ∈ events, isEndFrame e = false) →
      waitData T events s w = .timeout true) ∧
    (∀ n (dataF endF : FpFrame), dataF.pid = FpPID.DATA →
      endF.pid = FpPID.END_OF_DATA →
      waitData T (List.replicate n (some dataF) ++ [some endF]) ⟨[], false⟩ 0 =
        .success ((List.replicate n dataF.packet).flatten ++ endF.packet) true) :=
  ⟨waitData_unsub T,
   waitDataLogic_resets,
   waitData_success_end T,
   waitData_no_end_timeout T,
   fun n dataF endF hd he => by
     have h := waitData_run_all T hT n dataF endF hd he []
     simpa using h⟩

/-- Witness for C3 at T = 500 ticks (5.0 s at the loop's 10 ms period): two
DATA frames then one END_OF_DATA assemble and succeed; a schedule without
END_OF_DATA times out with the handler unsubscribed. -/
theorem bulk_wait_contract_witness :
    waitData 500 (List.replicate 2 (some ⟨0xFFFFFFFF, FpPID.DATA, [9, 9]⟩) ++
        [some ⟨0xFFFFFFFF, FpPID.END_OF_DATA, [7]⟩]) ⟨[], false⟩ 0 =
      .success ((List.replicate 2 ([9, 9] : List Nat)).flatten ++ [7]) true ∧
    waitData 500 [some ⟨0xFFFFFFFF, FpPID.DATA, [1]⟩, none] ⟨[], false⟩ 0 =
      .timeout true :=
  ⟨(bulk_wait_contract 500 (by norm_num)).2.2.2.2 2 _ _ rfl rfl,
   (bulk_wait_contract 500 (by norm_num)).2.2.2.1 _ _ _ rfl (by decide)⟩
